import Mathlib

/-!
Shallow embedding of the ProjectLoW music engine (`src/main.py`) and proofs of
the specification claims about it.

Modelling conventions:
* A loaded `pygame.mixer.Sound` is identified by the filename it was loaded
  from, so `Track` is a `String`.
* The filesystem under the sets root is modelled by `DirEntry`/`FileEntry`
  lists: `os.listdir` order is the list order, `FileEntry.loadable` says
  whether `pygame.mixer.Sound(path)` would succeed on that file.
* Python's `str.lower()` / `str.endswith` / `list.sort()` on filenames are
  modelled at the level of Unicode code points (`Char.toNat`); `lower` is
  modelled on the ASCII range, which is all the extension test looks at.
  `list.sort()` (stable, lexicographic on code points) is modelled by
  `List.insertionSort`, which is also stable.
* Side effects (channel fades, `play`, diagnostics the claims talk about, the
  `on_step` notifier) are recorded as an `Event` trace; purely cosmetic
  `print`s carry no information and are not traced.
* `random.choice(names)` is modelled by indexing with `k % names.length` for
  an arbitrary oracle `k : Nat`: every index is reachable and a uniform `k`
  induces the uniform draw of `random.choice`.
* Dict indexing `music_sets[name]` is `List.lookup`; the `KeyError` a missing
  key would raise in Python is traced as `Event.keyError` (shown unreachable
  from reachable engine states in the invariant claim).
-/

set_option linter.unusedVariables false

namespace ProjectLoW

/-- `CROSSFADE_MS` from `main.py`. -/
def CROSSFADE_MS : Nat := 250

/-- A loaded sound, identified by the filename it came from. -/
abbrev Track := String

/-- One file inside a candidate set directory. -/
structure FileEntry where
  name : String
  loadable : Bool
deriving DecidableEq, Repr

/-- One entry of the sets root directory (`os.listdir(SETS_PATH)`). -/
structure DirEntry where
  name : String
  isDir : Bool
  files : List FileEntry
deriving DecidableEq, Repr

/-- ASCII lowercasing of a single code point (model of `str.lower`). -/
def lowerCode (n : Nat) : Nat := if 65 ≤ n ∧ n ≤ 90 then n + 32 else n

/-- Code points of a string after ASCII lowercasing. -/
def loweredCodes (s : String) : List Nat := s.data.map (fun c => lowerCode c.toNat)

/-- Raw code points of a string. -/
def rawCodes (s : String) : List Nat := s.data.map (fun c => c.toNat)

/-- `f.lower().endswith(".wav") or f.lower().endswith(".ogg")` from `main.py`. -/
def isAudioFile (f : String) : Bool :=
  List.isSuffixOf (rawCodes ".wav") (loweredCodes f) ||
    List.isSuffixOf (rawCodes ".ogg") (loweredCodes f)

/-- Lexicographic comparison of code-point sequences (Python `str <=`). -/
def lexLe : List Nat → List Nat → Bool
  | [], _ => true
  | _ :: _, [] => false
  | a :: as, b :: bs => if a < b then true else if b < a then false else lexLe as bs

/-- Filename order used by `files.sort()`. -/
def fileLe (a b : FileEntry) : Prop := lexLe (rawCodes a.name) (rawCodes b.name) = true

instance : DecidableRel fileLe := fun a b => instDecidableEqBool _ _

/-- Observable effects of the engine that the specification talks about. -/
inductive Event where
  | fadeout (ms : Nat)
  | playTrack (t : Track) (loops : Int) (fadeMs : Nat)
  | switchedSet (name : String)
  | invalidState (state : Nat) (name : String)
  | keyError (name : String)
  | advanceCall
  | onStepCall
  | onStepError
  | loadFail (path : String)
  | skipSet (name : String) (count : Nat)
deriving DecidableEq, Repr

/-- The set library: `music_sets` in discovery order. -/
abbrev Library := List (String × List Track)

/-- The recognized audio files of a candidate directory. -/
def audioFiles (folder : DirEntry) : List FileEntry :=
  folder.files.filter (fun f => isAudioFile f.name)

/-- The recognized audio files in sorted order (`files.sort()`). -/
def sortedAudio (folder : DirEntry) : List FileEntry :=
  (audioFiles folder).insertionSort fileLe

/-- The first three sorted audio files (`files[:3]`), the load attempts. -/
def loadAttempts (folder : DirEntry) : List FileEntry :=
  (sortedAudio folder).take 3

/-- The tracks that actually load among the attempts (`sounds`). -/
def loadedTracks (folder : DirEntry) : List Track :=
  ((loadAttempts folder).filter (fun f => f.loadable)).map (fun f => f.name)

/-- Number of valid (recognized extension and loadable) audio files of a
directory; this is the count claim C2 speaks about. -/
def validCount (files : List FileEntry) : Nat :=
  (files.filter (fun f => f.loadable && isAudioFile f.name)).length

/-- Processing of one `os.listdir(SETS_PATH)` entry in the load loop of
`run_engine` (`main.py` lines 64-92): skip non-directories, skip directories
with no recognized audio files, otherwise attempt the first three sorted
files and accept the set iff exactly 3 loaded. -/
def scanFolder (folder : DirEntry) : Option (String × List Track) × List Event :=
  if folder.isDir = false then (none, [])
  else if audioFiles folder = [] then (none, [])
  else
    let evs := ((loadAttempts folder).filter (fun f => f.loadable = false)).map
      (fun f => Event.loadFail f.name)
    if (loadedTracks folder).length = 3 then
      (some (folder.name, loadedTracks folder), evs)
    else
      (none, evs ++ [Event.skipSet folder.name (loadedTracks folder).length])

/-- The whole `music_sets` building loop over the root listing. -/
def scanSets : List DirEntry → Library × List Event
  | [] => ([], [])
  | d :: rest =>
    let r := scanFolder d
    let rec' := scanSets rest
    ((match r.1 with | some s => s :: rec'.1 | none => rec'.1), r.2 ++ rec'.2)

/-- The single playback channel (`pygame.mixer.Channel(0)`): which track, if
any, is looping on it. -/
structure Channel where
  playing : Option Track
deriving DecidableEq, Repr

/-- `play_loop_sound`: fade out the busy channel, then play the new sound
looping forever (`loops=-1`) with a fade-in. -/
def playLoopSound (ch : Channel) (s : Track) : Channel × List Event :=
  ((⟨some s⟩ : Channel),
    (if ch.playing.isSome then [Event.fadeout CROSSFADE_MS] else []) ++
      [Event.playTrack s (-1) CROSSFADE_MS])

/-- The engine's mutable state: `current_set_name`, `current_state` and the
channel contents. -/
structure EngineState where
  currentSet : Option String
  currentState : Nat
  channel : Channel
deriving DecidableEq, Repr

/-- `play_current_state`: no-op before a set is chosen; otherwise look the set
up and play the track at index `current_state - 1` if in bounds, else log the
invalid state. A missing dict key would raise `KeyError` in Python; it is
traced as `Event.keyError` here. -/
def playCurrentState (lib : Library) (es : EngineState) : EngineState × List Event :=
  match es.currentSet with
  | none => (es, [])
  | some name =>
    match lib.lookup name with
    | none => (es, [Event.keyError name])
    | some sounds =>
      if es.currentState - 1 < sounds.length then
        ({es with channel := (playLoopSound es.channel (sounds.getD (es.currentState - 1) "")).1},
          (playLoopSound es.channel (sounds.getD (es.currentState - 1) "")).2)
      else (es, [Event.invalidState es.currentState name])

/-- `start_set`: switch to the named set at state 1 and play it. -/
def startSet (lib : Library) (es : EngineState) (name : String) : EngineState × List Event :=
  ((playCurrentState lib { es with currentSet := some name, currentState := 1 }).1,
    Event.switchedSet name ::
      (playCurrentState lib { es with currentSet := some name, currentState := 1 }).2)

/-- `choose_random_set(exclude)`: drop the excluded name from the pool when it
is present and the library holds more than one set, then draw
`random.choice(pool)`, modelled by the oracle index `k % pool.length`. -/
def chooseRandomSet (lib : Library) (exclude : Option String) (k : Nat) : String :=
  let names := lib.map Prod.fst
  let pool :=
    match exclude with
    | some e => if e ∈ names ∧ names.length > 1 then names.erase e else names
    | none => names
  pool.getD (k % pool.length) ""

/-- The events of the `on_step` notifier call at the end of `advance_state`:
the call itself, and the logged error when the callback raises. -/
def stepEvents (onStepFails : Bool) : List Event :=
  Event.onStepCall :: (if onStepFails then [Event.onStepError] else [])

/-- `advance_state`: no-op when no set is active; otherwise 1→2, 2→3,
3→random new set, anything else→reset to 1; finally invoke the notifier
(whose exception is caught). `onStepFails` says whether the supplied callback
raises on this call. -/
def advanceState (lib : Library) (es : EngineState) (k : Nat) (onStepFails : Bool) :
    EngineState × List Event :=
  match es.currentSet with
  | none => (es, [])
  | some name =>
    let body :=
      if es.currentState = 1 then playCurrentState lib { es with currentState := 2 }
      else if es.currentState = 2 then playCurrentState lib { es with currentState := 3 }
      else if es.currentState = 3 then startSet lib es (chooseRandomSet lib (some name) k)
      else playCurrentState lib { es with currentState := 1 }
    (body.1, body.2 ++ stepEvents onStepFails)

/-- One poll iteration's inputs: the stop flag as observed at the top of the
iteration, the sampled key state, and the oracles used if an advance happens. -/
structure Sample where
  stop : Bool
  key : Bool
  choice : Nat
  stepFails : Bool
deriving DecidableEq, Repr

/-- Engine state of the polling loop: engine state plus the `key_held` latch. -/
structure LoopState where
  es : EngineState
  keyHeld : Bool
deriving DecidableEq, Repr

/-- The main polling loop of `run_engine` (lines 183-195) over a finite trace
of poll samples: the stop flag is checked first; a pressed key with a clear
latch calls `advance_state` and sets the latch; a released key clears it. -/
def runLoop (lib : Library) (st : LoopState) : List Sample → LoopState × List Event
  | [] => (st, [])
  | s :: rest =>
    if s.stop then (st, [])
    else if s.key then
      if st.keyHeld then runLoop lib st rest
      else
        ((runLoop lib ⟨(advanceState lib st.es s.choice s.stepFails).1, true⟩ rest).1,
          Event.advanceCall :: (advanceState lib st.es s.choice s.stepFails).2 ++
            (runLoop lib ⟨(advanceState lib st.es s.choice s.stepFails).1, true⟩ rest).2)
    else runLoop lib ⟨st.es, false⟩ rest

/-- The `finally` block: fade the channel out over 500 ms only if it is busy. -/
def shutdown (ch : Channel) : List Event :=
  if ch.playing.isSome then [Event.fadeout 500] else []

/-- How a `run_engine` call ended. -/
inductive RunOutcome where
  | rootMissing
  | noSets
  | stopped
deriving DecidableEq, Repr

/-- Result of a whole `run_engine` call: outcome, whether the polling loop was
entered, and the event trace. -/
structure RunResult where
  outcome : RunOutcome
  enteredLoop : Bool
  events : List Event
deriving DecidableEq, Repr

/-- The engine state before any set is chosen. -/
def initState : EngineState := ⟨none, 1, ⟨none⟩⟩

/-- `run_engine`: missing root and empty library abort startup before any
playback; otherwise start a random set and run the polling loop, fading out
on exit. `root = none` models a missing `SETS_PATH` directory. -/
def runEngine (root : Option (List DirEntry)) (k0 : Nat) (samples : List Sample) :
    RunResult :=
  match root with
  | none => ⟨.rootMissing, false, []⟩
  | some dirs =>
    let scanned := scanSets dirs
    if scanned.1 = [] then ⟨.noSets, false, scanned.2⟩
    else
      let started := startSet scanned.1 initState (chooseRandomSet scanned.1 none k0)
      let looped := runLoop scanned.1 ⟨started.1, false⟩ samples
      ⟨.stopped, true, scanned.2 ++ started.2 ++ looped.2 ++ shutdown looped.1.es.channel⟩

/-- Tracks passed to `channel.play` in a trace, in order. -/
def playedTracks (evs : List Event) : List Track :=
  evs.filterMap (fun e => match e with | .playTrack t _ _ => some t | _ => none)

/-- Recognizer for the loop's `advance_state()` call marker. -/
def isAdvanceCall : Event → Bool
  | .advanceCall => true
  | _ => false

/-- Recognizer for notifier-related events. -/
def isStepEvt : Event → Bool
  | .onStepCall => true
  | .onStepError => true
  | .advanceCall => true
  | _ => false

/-- Recognizer for the `on_step` invocation itself. -/
def isOnStepCall : Event → Bool
  | .onStepCall => true
  | _ => false

/-- Recognizer for playback-side effects (fades and plays). -/
def isPlayback : Event → Bool
  | .fadeout _ => true
  | .playTrack _ _ _ => true
  | _ => false

/-- Recognizer for the diagnostics of the library scan. -/
def isScanDiag : Event → Bool
  | .loadFail _ => true
  | .skipSet _ _ => true
  | _ => false

/-- Recognizer for the two defensive failures of `play_current_state`. -/
def isBadPlay : Event → Bool
  | .invalidState _ _ => true
  | .keyError _ => true
  | _ => false

/-- The key samples the loop actually processes: everything before the first
iteration that observes the stop flag. -/
def keysBeforeStop : List Sample → List Bool
  | [] => []
  | s :: rest => if s.stop then [] else s.key :: keysBeforeStop rest

/-- Number of rising edges in a key-sample sequence, given the sample the
latch currently remembers. -/
def risingEdges (prev : Bool) : List Bool → Nat
  | [] => 0
  | b :: rest => (if b = true ∧ prev = false then 1 else 0) + risingEdges b rest

/-- The engine-state invariant of claim C10: the state counter is in
`{1,2,3}` and the active set name, when set, is a library key holding exactly
three tracks. -/
def Inv (lib : Library) (es : EngineState) : Prop :=
  (es.currentState = 1 ∨ es.currentState = 2 ∨ es.currentState = 3) ∧
  ∀ n, es.currentSet = some n → ∃ ts, lib.lookup n = some ts ∧ ts.length = 3

/-- Engine states reachable in `run_engine` once the library is loaded: the
initial `start_set` on a randomly chosen set, closed under `advance_state`. -/
inductive Reachable (lib : Library) : EngineState → Prop
  | start (k : Nat) : Reachable lib (startSet lib initState (chooseRandomSet lib none k)).1
  | adv {es : EngineState} (k : Nat) (fails : Bool) :
      Reachable lib es → Reachable lib (advanceState lib es k fails).1

/-- A two-set demo library. -/
def libAB : Library := [("a", ["a1", "a2", "a3"]), ("b", ["b1", "b2", "b3"])]

/-- A demo engine state on set `a` in state 3. -/
def esA3 : EngineState := ⟨some "a", 3, ⟨some "a3"⟩⟩

/-- A demo directory whose three recognized files, sorted, all load. -/
def goodDir : DirEntry := ⟨"good", true, [⟨"2.wav", true⟩, ⟨"1.wav", true⟩, ⟨"3.ogg", true⟩]⟩

end ProjectLoW

namespace ProjectLoW

/-! ### Basic structural lemmas about the engine operations -/

theorem playCurrentState_currentSet (lib : Library) (es : EngineState) :
    (playCurrentState lib es).1.currentSet = es.currentSet := by
  unfold playCurrentState
  split
  · rfl
  · split
    · rfl
    · split <;> rfl

theorem playCurrentState_currentState (lib : Library) (es : EngineState) :
    (playCurrentState lib es).1.currentState = es.currentState := by
  unfold playCurrentState
  split
  · rfl
  · split
    · rfl
    · split <;> rfl

theorem playCurrentState_events_stepEvt (lib : Library) (es : EngineState) :
    ∀ e ∈ (playCurrentState lib es).2, isStepEvt e = false := by
  unfold playCurrentState
  split
  · simp
  · split
    · simp [isStepEvt]
    · split
      · rcases hp : es.channel.playing with _ | t0 <;>
          simp [playLoopSound, hp, isStepEvt]
      · simp [isStepEvt]

theorem startSet_events_stepEvt (lib : Library) (es : EngineState) (name : String) :
    ∀ e ∈ (startSet lib es name).2, isStepEvt e = false := by
  unfold startSet
  intro e he
  rcases List.mem_cons.mp he with rfl | he'
  · rfl
  · exact playCurrentState_events_stepEvt _ _ e he'

theorem isAdvanceCall_eq_false (e : Event) (h : isStepEvt e = false) :
    isAdvanceCall e = false := by
  cases e <;> simp_all [isStepEvt, isAdvanceCall]

/-- Claim C1: from `active_state = 1`, `Advance()` moves to state 2 keeping the
active set and crossfades to the track at index 1 (= new state minus one); from
state 2 it moves to state 3 keeping the set and crossfades to the track at
index 2. -/
theorem C1_advance_from_low_states
    (lib : Library) (es : EngineState) (k : Nat) (fails : Bool)
    (n : String) (ts : List Track)
    (hset : es.currentSet = some n) (hlook : lib.lookup n = some ts)
    (hlen : ts.length = 3) :
    (es.currentState = 1 →
      (advanceState lib es k fails).1.currentState = 2 ∧
      (advanceState lib es k fails).1.currentSet = some n ∧
      playedTracks (advanceState lib es k fails).2 = [ts.getD 1 ""]) ∧
    (es.currentState = 2 →
      (advanceState lib es k fails).1.currentState = 3 ∧
      (advanceState lib es k fails).1.currentSet = some n ∧
      playedTracks (advanceState lib es k fails).2 = [ts.getD 2 ""]) := by
  constructor
  · intro h1
    unfold advanceState
    rcases hp : es.channel.playing with _ | t0 <;> cases fails <;>
      simp [hset, h1, playCurrentState, hlook, hlen, playLoopSound, hp,
        playedTracks, stepEvents]
  · intro h2
    unfold advanceState
    rcases hp : es.channel.playing with _ | t0 <;> cases fails <;>
      simp [hset, h2, playCurrentState, hlook, hlen, playLoopSound, hp,
        playedTracks, stepEvents]

/-- Witness for C1 on a concrete one-set library. -/
theorem C1_witness :
    (advanceState [("a", ["t1", "t2", "t3"])] ⟨some "a", 1, ⟨some "t1"⟩⟩ 0 false).1.currentState = 2 ∧
    (advanceState [("a", ["t1", "t2", "t3"])] ⟨some "a", 1, ⟨some "t1"⟩⟩ 0 false).1.currentSet = some "a" ∧
    playedTracks (advanceState [("a", ["t1", "t2", "t3"])] ⟨some "a", 1, ⟨some "t1"⟩⟩ 0 false).2 =
      [(["t1", "t2", "t3"] : List Track).getD 1 ""] :=
  (C1_advance_from_low_states [("a", ["t1", "t2", "t3"])] ⟨some "a", 1, ⟨some "t1"⟩⟩ 0 false
    "a" ["t1", "t2", "t3"] rfl (by decide) (by decide)).1 rfl

/-- Claim C7: `CrossfadeTo` with an idle channel only fades the new track in;
with a busy channel it fades the prior track out and the new one in; the new
track loops indefinitely (`loops = -1`). -/
theorem C7_crossfade (ch : Channel) (t : Track) :
    (ch.playing = none →
      playLoopSound ch t = (⟨some t⟩, [Event.playTrack t (-1) CROSSFADE_MS])) ∧
    (∀ t0, ch.playing = some t0 →
      playLoopSound ch t =
        (⟨some t⟩, [Event.fadeout CROSSFADE_MS, Event.playTrack t (-1) CROSSFADE_MS])) := by
  constructor
  · intro h
    simp [playLoopSound, h]
  · intro t0 h
    simp [playLoopSound, h]

/-- Witness for C7 at concrete channels. -/
theorem C7_witness :
    playLoopSound (⟨none⟩ : Channel) "b" =
      (⟨some "b"⟩, [Event.playTrack "b" (-1) CROSSFADE_MS]) ∧
    playLoopSound (⟨some "a"⟩ : Channel) "b" =
      (⟨some "b"⟩, [Event.fadeout CROSSFADE_MS, Event.playTrack "b" (-1) CROSSFADE_MS]) :=
  ⟨(C7_crossfade ⟨none⟩ "b").1 rfl, (C7_crossfade ⟨some "a"⟩ "b").2 "a" rfl⟩

end ProjectLoW

namespace ProjectLoW

theorem isOnStepCall_eq_false (e : Event) (h : isStepEvt e = false) :
    isOnStepCall e = false := by
  cases e <;> simp_all [isStepEvt, isOnStepCall]

/-- The non-notifier part of `advance_state` when a set is active: its events
precede the notifier events and contain no notifier event themselves, and the
resulting state does not depend on whether the notifier raises. -/
theorem advance_decomp (lib : Library) (es : EngineState) (k : Nat) (n : String)
    (hn : es.currentSet = some n) :
    ∃ body : EngineState × List Event,
      (∀ fl, advanceState lib es k fl = (body.1, body.2 ++ stepEvents fl)) ∧
      (∀ e ∈ body.2, isStepEvt e = false) := by
  refine ⟨if es.currentState = 1 then playCurrentState lib { es with currentState := 2 }
    else if es.currentState = 2 then playCurrentState lib { es with currentState := 3 }
    else if es.currentState = 3 then startSet lib es (chooseRandomSet lib (some n) k)
    else playCurrentState lib { es with currentState := 1 }, ?_, ?_⟩
  · intro fl
    simp [advanceState, hn]
  · split
    · exact playCurrentState_events_stepEvt _ _
    · split
      · exact playCurrentState_events_stepEvt _ _
      · split
        · exact startSet_events_stepEvt _ _ _
        · exact playCurrentState_events_stepEvt _ _

/-- Claim C3: `Advance()` with no active set never invokes `onStep`; with an
active set it invokes `onStep` exactly once, after the crossfade of the
transition has been issued, and a raising callback is caught (logged as
`onStepError`) without changing the resulting engine state or the rest of the
run. -/
theorem C3_on_step_notifier (lib : Library) (es : EngineState) (k : Nat) (fails : Bool) :
    (es.currentSet = none → advanceState lib es k fails = (es, [])) ∧
    (∀ n, es.currentSet = some n →
      (advanceState lib es k true).1 = (advanceState lib es k false).1 ∧
      (advanceState lib es k fails).2.countP isOnStepCall = 1 ∧
      (∃ body, (advanceState lib es k fails).2 =
          body ++ Event.onStepCall :: (if fails then [Event.onStepError] else []) ∧
          ∀ e ∈ body, isStepEvt e = false) ∧
      ∀ rest : List Sample,
        (runLoop lib ⟨es, false⟩ (⟨false, true, k, true⟩ :: rest)).1 =
          (runLoop lib ⟨es, false⟩ (⟨false, true, k, false⟩ :: rest)).1) := by
  constructor
  · intro h
    simp [advanceState, h]
  · intro n hn
    obtain ⟨body, hbody, hevs⟩ := advance_decomp lib es k n hn
    have hstate : (advanceState lib es k true).1 = (advanceState lib es k false).1 := by
      rw [hbody true, hbody false]
    refine ⟨hstate, ?_, ?_, ?_⟩
    · rw [hbody fails]
      rw [List.countP_append]
      have h0 : body.2.countP isOnStepCall = 0 :=
        List.countP_eq_zero.mpr (fun e he => by simp [isOnStepCall_eq_false e (hevs e he)])
      cases fails <;> simp [h0, stepEvents, List.countP_cons, isOnStepCall]
    · exact ⟨body.2, by rw [hbody fails]; rfl, hevs⟩
    · intro rest
      simp only [runLoop]
      norm_num
      rw [hstate]

/-- Witness for C3: no set active means a silent no-op; on the demo state the
notifier fires once after the crossfade even when it raises. -/
theorem C3_witness :
    advanceState libAB ⟨none, 1, ⟨none⟩⟩ 0 true = (⟨none, 1, ⟨none⟩⟩, []) ∧
    ((advanceState libAB esA3 0 true).1 = (advanceState libAB esA3 0 false).1 ∧
      (advanceState libAB esA3 0 true).2.countP isOnStepCall = 1 ∧
      (∃ body, (advanceState libAB esA3 0 true).2 =
          body ++ Event.onStepCall :: (if true then [Event.onStepError] else []) ∧
          ∀ e ∈ body, isStepEvt e = false) ∧
      ∀ rest : List Sample,
        (runLoop libAB ⟨esA3, false⟩ (⟨false, true, 0, true⟩ :: rest)).1 =
          (runLoop libAB ⟨esA3, false⟩ (⟨false, true, 0, false⟩ :: rest)).1) :=
  ⟨(C3_on_step_notifier libAB ⟨none, 1, ⟨none⟩⟩ 0 true).1 rfl,
   (C3_on_step_notifier libAB esA3 0 true).2 "a" rfl⟩

end ProjectLoW

namespace ProjectLoW

theorem advance_events_no_advanceCall (lib : Library) (es : EngineState) (k : Nat)
    (fl : Bool) : (advanceState lib es k fl).2.countP isAdvanceCall = 0 := by
  rcases hc : es.currentSet with _ | n
  · simp [advanceState, hc]
  · obtain ⟨body, hbody, hevs⟩ := advance_decomp lib es k n hc
    rw [hbody fl, List.countP_append]
    have h0 : body.2.countP isAdvanceCall = 0 :=
      List.countP_eq_zero.mpr (fun e he => by simp [isAdvanceCall_eq_false e (hevs e he)])
    cases fl <;> simp [h0, stepEvents, isAdvanceCall]

/-- Claim C6: over any trace of poll samples, `advance_state` is called
exactly once per rising edge of the key (not-pressed to pressed), never again
while the key stays held, and never while it is released. -/
theorem C6_edge_triggered (lib : Library) (st : LoopState) (samples : List Sample) :
    (runLoop lib st samples).2.countP isAdvanceCall =
      risingEdges st.keyHeld (keysBeforeStop samples) := by
  induction samples generalizing st with
  | nil => simp [runLoop, keysBeforeStop, risingEdges]
  | cons s rest ih =>
    cases hs : s.stop
    · cases hk : s.key
      · rw [show runLoop lib st (s :: rest) = runLoop lib ⟨st.es, false⟩ rest by
          simp [runLoop, hs, hk]]
        rw [ih ⟨st.es, false⟩]
        simp [keysBeforeStop, hs, hk, risingEdges]
      · cases hh : st.keyHeld
        · have hrun : runLoop lib st (s :: rest) =
              ((runLoop lib ⟨(advanceState lib st.es s.choice s.stepFails).1, true⟩ rest).1,
                Event.advanceCall :: (advanceState lib st.es s.choice s.stepFails).2 ++
                  (runLoop lib ⟨(advanceState lib st.es s.choice s.stepFails).1, true⟩ rest).2) := by
            simp [runLoop, hs, hk, hh]
          rw [hrun]
          simp only [List.countP_cons, List.countP_append,
            ih ⟨(advanceState lib st.es s.choice s.stepFails).1, true⟩]
          simp [advance_events_no_advanceCall, isAdvanceCall, keysBeforeStop, hs, hk, hh,
            risingEdges]
        · rw [show runLoop lib st (s :: rest) = runLoop lib st rest by
            simp [runLoop, hs, hk, hh]]
          rw [ih st]
          simp [keysBeforeStop, hs, hk, hh, risingEdges]
    · simp [runLoop, hs, keysBeforeStop, risingEdges]

/-- Claim C8: each loop iteration checks the cancellation flag before the key
is sampled (an iteration that observes the flag does nothing else and exits),
and the shutdown that follows fades out only if a track is playing. -/
theorem C8_cancellation_and_shutdown (lib : Library) (st : LoopState) (s : Sample)
    (rest : List Sample) (ch : Channel) (t : Track) :
    (s.stop = true → runLoop lib st (s :: rest) = (st, [])) ∧
    (ch.playing = some t → shutdown ch = [Event.fadeout 500]) ∧
    (ch.playing = none → shutdown ch = []) :=
  ⟨fun h => by simp [runLoop, h],
   fun h => by simp [shutdown, h],
   fun h => by simp [shutdown, h]⟩

/-- Witness for C8: a stop observed with the key pressed still exits at once,
and shutdown fades only a busy channel. -/
theorem C8_witness :
    runLoop [] ⟨⟨some "a", 1, ⟨some "t"⟩⟩, false⟩ [⟨true, true, 0, false⟩] =
      (⟨⟨some "a", 1, ⟨some "t"⟩⟩, false⟩, []) ∧
    shutdown ⟨some "t"⟩ = [Event.fadeout 500] ∧
    shutdown ⟨none⟩ = [] :=
  ⟨(C8_cancellation_and_shutdown [] ⟨⟨some "a", 1, ⟨some "t"⟩⟩, false⟩ ⟨true, true, 0, false⟩
      [] ⟨none⟩ "t").1 rfl,
   (C8_cancellation_and_shutdown [] ⟨⟨some "a", 1, ⟨some "t"⟩⟩, false⟩ ⟨true, true, 0, false⟩
      [] ⟨some "t"⟩ "t").2.1 rfl,
   (C8_cancellation_and_shutdown [] ⟨⟨some "a", 1, ⟨some "t"⟩⟩, false⟩ ⟨true, true, 0, false⟩
      [] ⟨none⟩ "t").2.2 rfl⟩

end ProjectLoW

namespace ProjectLoW

theorem getD_mem_of_ne_nil (l : List String) (k : Nat) (h : l ≠ []) :
    l.getD (k % l.length) "" ∈ l := by
  have hlen : 0 < l.length := List.length_pos.mpr h
  have hk : k % l.length < l.length := Nat.mod_lt _ hlen
  rw [List.getD_eq_getElem l "" hk]
  exact List.getElem_mem hk

theorem startSet_state (lib : Library) (es : EngineState) (name : String) :
    (startSet lib es name).1.currentSet = some name ∧
      (startSet lib es name).1.currentState = 1 := by
  unfold startSet
  refine ⟨?_, ?_⟩
  · rw [playCurrentState_currentSet]
  · rw [playCurrentState_currentState]

theorem chooseRandomSet_mem (lib : Library) (exclude : Option String) (k : Nat)
    (hne : lib ≠ []) : chooseRandomSet lib exclude k ∈ lib.map Prod.fst := by
  have hnNe : lib.map Prod.fst ≠ [] := by simpa using hne
  unfold chooseRandomSet
  rcases exclude with _ | e
  · exact getD_mem_of_ne_nil _ _ hnNe
  · by_cases hcond : e ∈ lib.map Prod.fst ∧ (lib.map Prod.fst).length > 1
    · have hlenE : ((lib.map Prod.fst).erase e).length = (lib.map Prod.fst).length - 1 :=
        List.length_erase_of_mem hcond.1
      have hEne : (lib.map Prod.fst).erase e ≠ [] := by
        refine List.length_pos.mp ?_
        omega
      simp only [hcond, if_pos, and_self]
      exact List.erase_subset _ _ (getD_mem_of_ne_nil _ _ hEne)
    · simp only [hcond, if_neg, not_false_iff]
      exact getD_mem_of_ne_nil _ _ hnNe

/-- Claim C4: `Advance()` from state 3 starts a new set at state 1; with more
than one set in the library the new set is drawn (by the `random.choice`
oracle) from exactly the set names minus the current one, so it differs from
the current set and every other set is a possible draw; with exactly one set
the same set is necessarily redrawn. -/
theorem C4_advance_from_state3
    (lib : Library) (es : EngineState) (k : Nat) (fails : Bool) (n : String)
    (hnodup : (lib.map Prod.fst).Nodup)
    (hmem : n ∈ lib.map Prod.fst)
    (hset : es.currentSet = some n) (h3 : es.currentState = 3) :
    ((advanceState lib es k fails).1.currentState = 1 ∧
      (advanceState lib es k fails).1.currentSet = some (chooseRandomSet lib (some n) k)) ∧
    (1 < lib.length →
      (∀ j, chooseRandomSet lib (some n) j =
        ((lib.map Prod.fst).erase n).getD (j % ((lib.map Prod.fst).erase n).length) "") ∧
      chooseRandomSet lib (some n) k ≠ n ∧
      chooseRandomSet lib (some n) k ∈ lib.map Prod.fst ∧
      (∀ m ∈ (lib.map Prod.fst).erase n, ∃ j, chooseRandomSet lib (some n) j = m)) ∧
    (lib.length = 1 →
      chooseRandomSet lib (some n) k = n ∧
      (advanceState lib es k fails).1.currentSet = some n ∧
      (advanceState lib es k fails).1.currentState = 1) := by
  have hadv : (advanceState lib es k fails).1 =
      (startSet lib es (chooseRandomSet lib (some n) k)).1 := by
    unfold advanceState
    simp [hset, h3]
  have hstart := startSet_state lib es (chooseRandomSet lib (some n) k)
  refine ⟨⟨by rw [hadv]; exact hstart.2, by rw [hadv]; exact hstart.1⟩, ?_, ?_⟩
  · intro hlen
    have hcond : n ∈ lib.map Prod.fst ∧ (lib.map Prod.fst).length > 1 :=
      ⟨hmem, by simpa using hlen⟩
    have heq : ∀ j, chooseRandomSet lib (some n) j =
        ((lib.map Prod.fst).erase n).getD (j % ((lib.map Prod.fst).erase n).length) "" := by
      intro j
      unfold chooseRandomSet
      simp only [hcond, if_pos, and_self]
    have hlenE : ((lib.map Prod.fst).erase n).length = (lib.map Prod.fst).length - 1 :=
      List.length_erase_of_mem hmem
    have hEne : (lib.map Prod.fst).erase n ≠ [] := by
      refine List.length_pos.mp ?_
      have : 1 < (lib.map Prod.fst).length := by simpa using hlen
      omega
    have hmemE : chooseRandomSet lib (some n) k ∈ (lib.map Prod.fst).erase n := by
      rw [heq k]
      exact getD_mem_of_ne_nil _ _ hEne
    have hchar := (hnodup.mem_erase_iff).mp hmemE
    refine ⟨heq, hchar.1, hchar.2, ?_⟩
    · intro m hm
      obtain ⟨i, hi, hgi⟩ := List.mem_iff_getElem.mp hm
      refine ⟨i, ?_⟩
      rw [heq i, Nat.mod_eq_of_lt hi, List.getD_eq_getElem _ "" hi]
      exact hgi
  · intro hlen1
    have hnames1 : lib.map Prod.fst = [n] := by
      obtain ⟨a, ha⟩ := List.length_eq_one.mp (by simpa using hlen1)
      subst ha
      simp at hmem
      simp [hmem]
    have hch : chooseRandomSet lib (some n) k = n := by
      unfold chooseRandomSet
      rw [hnames1]
      simp [Nat.mod_one]
    refine ⟨hch, ?_, ?_⟩
    · rw [hadv, hch]
      exact (startSet_state lib es n).1
    · rw [hadv]
      exact hstart.2

end ProjectLoW

namespace ProjectLoW

/-- Witness for C4 on the two-set demo library. -/
theorem C4_witness :
    ((advanceState libAB esA3 0 false).1.currentState = 1 ∧
      (advanceState libAB esA3 0 false).1.currentSet =
        some (chooseRandomSet libAB (some "a") 0)) ∧
    (1 < libAB.length →
      (∀ j, chooseRandomSet libAB (some "a") j =
        ((libAB.map Prod.fst).erase "a").getD
          (j % ((libAB.map Prod.fst).erase "a").length) "") ∧
      chooseRandomSet libAB (some "a") 0 ≠ "a" ∧
      chooseRandomSet libAB (some "a") 0 ∈ libAB.map Prod.fst ∧
      (∀ m ∈ (libAB.map Prod.fst).erase "a", ∃ j, chooseRandomSet libAB (some "a") j = m)) ∧
    (libAB.length = 1 →
      chooseRandomSet libAB (some "a") 0 = "a" ∧
      (advanceState libAB esA3 0 false).1.currentSet = some "a" ∧
      (advanceState libAB esA3 0 false).1.currentState = 1) :=
  C4_advance_from_state3 libAB esA3 0 false "a" (by decide) (by decide) rfl rfl

theorem scanFolder_events_diag (folder : DirEntry) :
    ∀ e ∈ (scanFolder folder).2, isScanDiag e = true := by
  unfold scanFolder
  split
  · simp
  · split
    · simp
    · split
      · intro e he
        simp only [List.mem_map] at he
        obtain ⟨f, -, rfl⟩ := he
        rfl
      · intro e he
        simp only [List.mem_append, List.mem_map, List.mem_singleton] at he
        rcases he with ⟨f, -, rfl⟩ | rfl <;> rfl

theorem scanSets_events_diag (dirs : List DirEntry) :
    ∀ e ∈ (scanSets dirs).2, isScanDiag e = true := by
  induction dirs with
  | nil => simp [scanSets]
  | cons d rest ih =>
    intro e he
    simp only [scanSets, List.mem_append] at he
    rcases he with h | h
    · exact scanFolder_events_diag d e h
    · exact ih e h

/-- Claim C5: a missing sets root, or a scan yielding no valid set, aborts
startup: the polling loop is never entered, and the trace holds no playback
action and no `onStep` invocation, only scan diagnostics. -/
theorem C5_fatal_startup (k0 : Nat) (samples : List Sample) (dirs : List DirEntry)
    (hempty : (scanSets dirs).1 = []) :
    runEngine none k0 samples = ⟨.rootMissing, false, []⟩ ∧
    (runEngine (some dirs) k0 samples).outcome = .noSets ∧
    (runEngine (some dirs) k0 samples).enteredLoop = false ∧
    ∀ e ∈ (runEngine (some dirs) k0 samples).events,
      isPlayback e = false ∧ isOnStepCall e = false := by
  refine ⟨rfl, ?_, ?_, ?_⟩
  · simp [runEngine, hempty]
  · simp [runEngine, hempty]
  · intro e he
    simp only [runEngine, hempty, if_pos] at he
    have := scanSets_events_diag dirs e he
    cases e <;> simp_all [isScanDiag, isPlayback, isOnStepCall]

/-- Witness for C5: a root with a non-directory entry and a directory holding
no audio files yields the no-sets startup failure. -/
theorem C5_witness :
    runEngine none 0 [⟨false, true, 0, false⟩] = ⟨.rootMissing, false, []⟩ ∧
    (runEngine (some [⟨"docs", true, [⟨"readme.txt", true⟩]⟩, ⟨"file.txt", false, []⟩]) 0
      [⟨false, true, 0, false⟩]).outcome = .noSets ∧
    (runEngine (some [⟨"docs", true, [⟨"readme.txt", true⟩]⟩, ⟨"file.txt", false, []⟩]) 0
      [⟨false, true, 0, false⟩]).enteredLoop = false ∧
    ∀ e ∈ (runEngine (some [⟨"docs", true, [⟨"readme.txt", true⟩]⟩, ⟨"file.txt", false, []⟩]) 0
      [⟨false, true, 0, false⟩]).events,
      isPlayback e = false ∧ isOnStepCall e = false :=
  C5_fatal_startup 0 [⟨false, true, 0, false⟩]
    [⟨"docs", true, [⟨"readme.txt", true⟩]⟩, ⟨"file.txt", false, []⟩] (by decide)

/-- Counterexample to claim C9 as stated: the directory `empty` is scanned
(it is a directory) and rejected (no set is produced for it), yet the scan
logs nothing at all for it, because a candidate with zero recognized audio
files is skipped silently by the `if not files: continue` branch. -/
theorem C9_counterexample :
    (scanFolder ⟨"empty", true, [⟨"notes.txt", true⟩]⟩).1 = none ∧
    (scanFolder ⟨"empty", true, [⟨"notes.txt", true⟩]⟩).2 = [] := by
  constructor <;> rfl

/-- Claim C9 amended: a warning reporting how many tracks loaded is logged for
every scanned candidate directory that holds at least one recognized audio
file yet is not accepted; a candidate directory with no recognized audio files
is skipped with no warning. -/
theorem C9_skip_warning (folder : DirEntry)
    (hdir : folder.isDir = true)
    (hfiles : audioFiles folder ≠ [])
    (hrej : (scanFolder folder).1 = none) :
    Event.skipSet folder.name (loadedTracks folder).length ∈ (scanFolder folder).2 ∧
    (loadedTracks folder).length ≠ 3 := by
  unfold scanFolder at hrej ⊢
  simp only [hdir, Bool.true_eq_false, if_false, hfiles, if_neg, not_false_iff] at hrej ⊢
  by_cases h3 : (loadedTracks folder).length = 3
  · simp [h3] at hrej
  · simp [h3]

/-- Witness for the amended C9: a directory with a single loadable `.wav` is
rejected with a warning reporting 1 loaded track. -/
theorem C9_witness :
    Event.skipSet "partial" (loadedTracks ⟨"partial", true, [⟨"a.wav", true⟩]⟩).length ∈
      (scanFolder ⟨"partial", true, [⟨"a.wav", true⟩]⟩).2 ∧
    (loadedTracks ⟨"partial", true, [⟨"a.wav", true⟩]⟩).length ≠ 3 :=
  C9_skip_warning ⟨"partial", true, [⟨"a.wav", true⟩]⟩ rfl (by decide) (by decide)

end ProjectLoW

namespace ProjectLoW

theorem lookup_of_mem_keys (lib : Library) (n : String) (h : n ∈ lib.map Prod.fst) :
    ∃ ts, lib.lookup n = some ts ∧ (n, ts) ∈ lib := by
  induction lib with
  | nil => simp at h
  | cons p rest ih =>
    obtain ⟨key, val⟩ := p
    by_cases hk : key = n
    · exact ⟨val, by simp [List.lookup, hk], by simp [hk]⟩
    · simp only [List.map_cons, List.mem_cons] at h
      rcases h with h | h
      · exact absurd h.symm hk
      · obtain ⟨ts, hl, hm⟩ := ih h
        have hk' : (n == key) = false := beq_eq_false_iff_ne.mpr (fun hh => hk hh.symm)
        refine ⟨ts, ?_, by simp [hm]⟩
        simp [List.lookup, hk', hl]

theorem inv_startSet (lib : Library) (hwf : ∀ p ∈ lib, p.2.length = 3)
    (es : EngineState) (name : String) (hmem : name ∈ lib.map Prod.fst) :
    Inv lib (startSet lib es name).1 := by
  have h := startSet_state lib es name
  constructor
  · exact Or.inl h.2
  · intro n hn
    rw [h.1] at hn
    obtain rfl : name = n := by injection hn
    obtain ⟨ts, hl, hm⟩ := lookup_of_mem_keys lib name hmem
    exact ⟨ts, hl, hwf _ hm⟩

theorem inv_advance (lib : Library) (hwf : ∀ p ∈ lib, p.2.length = 3)
    (hne : lib ≠ []) (es : EngineState) (k : Nat) (fails : Bool)
    (hinv : Inv lib es) : Inv lib (advanceState lib es k fails).1 := by
  rcases hc : es.currentSet with _ | n
  · rw [show (advanceState lib es k fails).1 = es by simp [advanceState, hc]]
    exact hinv
  · by_cases h1 : es.currentState = 1
    · rw [show (advanceState lib es k fails).1 =
          (playCurrentState lib { es with currentState := 2 }).1 by
        simp [advanceState, hc, h1]]
      refine ⟨Or.inr (Or.inl ?_), ?_⟩
      · rw [playCurrentState_currentState]
      · intro m hm
        rw [playCurrentState_currentSet] at hm
        exact hinv.2 m (by simpa using hm)
    · by_cases h2 : es.currentState = 2
      · rw [show (advanceState lib es k fails).1 =
            (playCurrentState lib { es with currentState := 3 }).1 by
          simp [advanceState, hc, h1, h2]]
        refine ⟨Or.inr (Or.inr ?_), ?_⟩
        · rw [playCurrentState_currentState]
        · intro m hm
          rw [playCurrentState_currentSet] at hm
          exact hinv.2 m (by simpa using hm)
      · by_cases h3 : es.currentState = 3
        · rw [show (advanceState lib es k fails).1 =
              (startSet lib es (chooseRandomSet lib (some n) k)).1 by
            simp [advanceState, hc, h1, h2, h3]]
          exact inv_startSet lib hwf es _ (chooseRandomSet_mem lib (some n) k hne)
        · rw [show (advanceState lib es k fails).1 =
              (playCurrentState lib { es with currentState := 1 }).1 by
            simp [advanceState, hc, h1, h2, h3]]
          refine ⟨Or.inl ?_, ?_⟩
          · rw [playCurrentState_currentState]
          · intro m hm
            rw [playCurrentState_currentSet] at hm
            exact hinv.2 m (by simpa using hm)

theorem playLoopSound_events_notBad (ch : Channel) (s : Track) :
    ∀ e ∈ (playLoopSound ch s).2, isBadPlay e = false := by
  rcases hp : ch.playing with _ | t0 <;> simp [playLoopSound, hp, isBadPlay]

/-- Claim C10: every reachable engine state satisfies the invariant
(`current_state ∈ {1,2,3}`, active set a library key with exactly 3 tracks);
hence the index `current_state - 1` of `play_current_state` is in bounds and
neither its `Invalid state` branch nor a `KeyError` can fire. -/
theorem C10_invariant (lib : Library) (hne : lib ≠ [])
    (hwf : ∀ p ∈ lib, p.2.length = 3) (es : EngineState)
    (hreach : Reachable lib es) :
    Inv lib es ∧
    (∀ n, es.currentSet = some n →
      ∃ ts, lib.lookup n = some ts ∧ es.currentState - 1 < ts.length) ∧
    ∀ e ∈ (playCurrentState lib es).2, isBadPlay e = false := by
  have hinv : Inv lib es := by
    induction hreach with
    | start k => exact inv_startSet lib hwf initState _ (chooseRandomSet_mem lib none k hne)
    | adv k fails hr ih => exact inv_advance lib hwf hne _ k fails ih
  have hbounds : ∀ n, es.currentSet = some n →
      ∃ ts, lib.lookup n = some ts ∧ es.currentState - 1 < ts.length := by
    intro n hn
    obtain ⟨ts, hl, hlen⟩ := hinv.2 n hn
    refine ⟨ts, hl, ?_⟩
    rcases hinv.1 with h | h | h <;> simp [h, hlen]
  refine ⟨hinv, hbounds, ?_⟩
  intro e he
  unfold playCurrentState at he
  rcases hc : es.currentSet with _ | n
  · simp [hc] at he
  · obtain ⟨ts, hl, hidx⟩ := hbounds n hc
    simp only [hc, hl] at he
    rw [if_pos hidx] at he
    exact playLoopSound_events_notBad _ _ e he

/-- Witness for C10: the state right after startup on the demo library. -/
theorem C10_witness :
    Inv libAB (startSet libAB initState (chooseRandomSet libAB none 0)).1 ∧
    (∀ n, (startSet libAB initState (chooseRandomSet libAB none 0)).1.currentSet = some n →
      ∃ ts, libAB.lookup n = some ts ∧
        (startSet libAB initState (chooseRandomSet libAB none 0)).1.currentState - 1 < ts.length) ∧
    ∀ e ∈ (playCurrentState libAB (startSet libAB initState (chooseRandomSet libAB none 0)).1).2,
      isBadPlay e = false :=
  C10_invariant libAB (by decide) (by decide) _ (Reachable.start 0)

end ProjectLoW

namespace ProjectLoW

theorem lexLe_total (l1 l2 : List Nat) : lexLe l1 l2 = true ∨ lexLe l2 l1 = true := by
  induction l1 generalizing l2 with
  | nil => exact Or.inl rfl
  | cons a as ih =>
    cases l2 with
    | nil => exact Or.inr rfl
    | cons b bs =>
      rcases Nat.lt_trichotomy a b with h | h | h
      · left
        simp [lexLe, h]
      · subst h
        rcases ih bs with h' | h'
        · left
          simp [lexLe, Nat.lt_irrefl, h']
        · right
          simp [lexLe, Nat.lt_irrefl, h']
      · right
        simp [lexLe, h]

theorem lexLe_trans (l1 l2 l3 : List Nat) (h12 : lexLe l1 l2 = true)
    (h23 : lexLe l2 l3 = true) : lexLe l1 l3 = true := by
  induction l1 generalizing l2 l3 with
  | nil => rfl
  | cons a as ih =>
    cases l2 with
    | nil => simp [lexLe] at h12
    | cons b bs =>
      cases l3 with
      | nil => simp [lexLe] at h23
      | cons c cs =>
        simp only [lexLe] at h12 h23 ⊢
        by_cases hab : a < b
        · by_cases hbc : b < c
          · simp [Nat.lt_trans hab hbc]
          · by_cases hcb : c < b
            · simp [hbc, hcb] at h23
            · have hbc' : b = c := Nat.le_antisymm (Nat.not_lt.mp hcb) (Nat.not_lt.mp hbc)
              subst hbc'
              simp [hab]
        · by_cases hba : b < a
          · simp [hab, hba] at h12
          · have hab' : a = b := Nat.le_antisymm (Nat.not_lt.mp hba) (Nat.not_lt.mp hab)
            subst hab'
            simp only [Nat.lt_irrefl, if_false] at h12
            by_cases hac : a < c
            · simp [hac]
            · by_cases hca : c < a
              · simp [hac, hca] at h23
              · have : a = c := Nat.le_antisymm (Nat.not_lt.mp hca) (Nat.not_lt.mp hac)
                subst this
                simp only [Nat.lt_irrefl, if_false] at h23 ⊢
                exact ih bs cs h12 h23

/-- Counterexample to claim C2 as stated: the directory `s` holds three valid
(loadable, `.wav`) files `b.wav`, `c.wav`, `d.wav`, yet no set is produced for
it, because the scan attempts only the first three sorted names
`a.wav`, `b.wav`, `c.wav` and `a.wav` fails to load. -/
theorem C2_counterexample :
    validCount ([⟨"a.wav", false⟩, ⟨"b.wav", true⟩, ⟨"c.wav", true⟩,
        ⟨"d.wav", true⟩] : List FileEntry) = 3 ∧
    (⟨"s", true, [⟨"a.wav", false⟩, ⟨"b.wav", true⟩, ⟨"c.wav", true⟩,
        ⟨"d.wav", true⟩]⟩ : DirEntry).isDir = true ∧
    (scanSets [⟨"s", true, [⟨"a.wav", false⟩, ⟨"b.wav", true⟩, ⟨"c.wav", true⟩,
        ⟨"d.wav", true⟩]⟩]).1 = [] := by
  decide

theorem loaded3_iff (folder : DirEntry) :
    (loadedTracks folder).length = 3 ↔
      ((loadAttempts folder).length = 3 ∧
        ∀ f ∈ loadAttempts folder, f.loadable = true) := by
  unfold loadedTracks
  rw [List.length_map, ← List.countP_eq_length_filter]
  constructor
  · intro h
    have hle : (loadAttempts folder).length ≤ 3 := List.length_take_le 3 _
    have hcp : List.countP (fun f => f.loadable) (loadAttempts folder) ≤
        (loadAttempts folder).length := List.countP_le_length _
    have h3 : (loadAttempts folder).length = 3 := Nat.le_antisymm hle (h ▸ hcp)
    refine ⟨h3, List.countP_eq_length.mp ?_⟩
    rw [h, h3]
  · rintro ⟨h3, hall⟩
    rw [List.countP_eq_length.mpr hall]
    exact h3

theorem accepted_validCount (folder : DirEntry)
    (h3 : (loadAttempts folder).length = 3)
    (hall : ∀ f ∈ loadAttempts folder, f.loadable = true) :
    3 ≤ validCount folder.files := by
  have h1 : ((loadAttempts folder).filter (fun f => f.loadable)).length = 3 := by
    rw [List.filter_eq_self.mpr hall]
    exact h3
  have hsub : (loadAttempts folder).Sublist (sortedAudio folder) :=
    List.take_sublist 3 _
  have h2 : ((loadAttempts folder).filter (fun f => f.loadable)).length ≤
      ((sortedAudio folder).filter (fun f => f.loadable)).length :=
    (hsub.filter _).length_le
  have hperm : (sortedAudio folder).Perm (audioFiles folder) :=
    List.perm_insertionSort _ _
  have h4 : ((sortedAudio folder).filter (fun f => f.loadable)).length =
      ((audioFiles folder).filter (fun f => f.loadable)).length :=
    (hperm.filter _).length_eq
  have h5 : (audioFiles folder).filter (fun f => f.loadable) =
      folder.files.filter (fun f => f.loadable && isAudioFile f.name) := by
    unfold audioFiles
    rw [List.filter_filter]
  unfold validCount
  rw [← h5]
  omega

end ProjectLoW

namespace ProjectLoW

/-- Claim C2 amended: a candidate directory yields a set exactly when its
first three recognized audio files in sorted filename order all load; the
accepted set then holds exactly those three filenames in lexicographic order.

A directory with fewer than three valid files still never yields a set, but a
directory with three or more valid files is rejected whenever one of the
*first three* sorted recognized files fails to load. -/
theorem C2_acceptance (folder : DirEntry) (hdir : folder.isDir = true) :
    ((scanFolder folder).1 =
      if (loadAttempts folder).length = 3 ∧ (∀ f ∈ loadAttempts folder, f.loadable = true)
      then some (folder.name, (loadAttempts folder).map (fun f => f.name))
      else none) ∧
    (validCount folder.files < 3 → (scanFolder folder).1 = none) ∧
    (∀ name ts, (scanFolder folder).1 = some (name, ts) →
      name = folder.name ∧ ts.length = 3 ∧
      List.Pairwise (fun a b => lexLe (rawCodes a) (rawCodes b) = true) ts) := by
  have hmain : (scanFolder folder).1 =
      if (loadAttempts folder).length = 3 ∧ (∀ f ∈ loadAttempts folder, f.loadable = true)
      then some (folder.name, (loadAttempts folder).map (fun f => f.name))
      else none := by
    unfold scanFolder
    by_cases hemp : audioFiles folder = []
    · have hatt : loadAttempts folder = [] := by
        unfold loadAttempts sortedAudio
        rw [hemp]
        rfl
      simp [hdir, hemp, hatt]
    · by_cases h3 : (loadedTracks folder).length = 3
      · have hc := (loaded3_iff folder).mp h3
        have hl : loadedTracks folder = (loadAttempts folder).map (fun f => f.name) := by
          unfold loadedTracks
          rw [List.filter_eq_self.mpr hc.2]
        simp [hdir, hemp, h3, hc, hl]
        exact hc.2
      · have hc : ¬((loadAttempts folder).length = 3 ∧
            ∀ f ∈ loadAttempts folder, f.loadable = true) :=
          fun hcc => h3 ((loaded3_iff folder).mpr hcc)
        simp [hdir, hemp, h3, hc]
  refine ⟨hmain, ?_, ?_⟩
  · intro hvc
    rw [hmain]
    by_cases hc : (loadAttempts folder).length = 3 ∧
        ∀ f ∈ loadAttempts folder, f.loadable = true
    · exact absurd (accepted_validCount folder hc.1 hc.2) (by omega)
    · rw [if_neg hc]
  · intro name ts hacc
    rw [hmain] at hacc
    by_cases hc : (loadAttempts folder).length = 3 ∧
        ∀ f ∈ loadAttempts folder, f.loadable = true
    · rw [if_pos hc] at hacc
      have hpair := Option.some.inj hacc
      have hn : folder.name = name := congrArg Prod.fst hpair
      have ht : List.map (fun f => f.name) (loadAttempts folder) = ts :=
        congrArg Prod.snd hpair
      refine ⟨hn.symm, ?_, ?_⟩
      · rw [← ht, List.length_map]
        exact hc.1
      · rw [← ht]
        have hsorted : List.Pairwise fileLe (sortedAudio folder) :=
          @List.sorted_insertionSort FileEntry fileLe _
            ⟨fun a b => lexLe_total _ _⟩ ⟨fun a b c => lexLe_trans _ _ _⟩
            (audioFiles folder)
        have hp : List.Pairwise fileLe (loadAttempts folder) :=
          List.Pairwise.sublist (List.take_sublist 3 _) hsorted
        exact List.Pairwise.map _ (fun a b h => h) hp
    · rw [if_neg hc] at hacc
      exact absurd hacc (by simp)

/-- Witness for the amended C2 on the demo directory. -/
theorem C2_witness :
    ((scanFolder goodDir).1 =
      if (loadAttempts goodDir).length = 3 ∧ (∀ f ∈ loadAttempts goodDir, f.loadable = true)
      then some (goodDir.name, (loadAttempts goodDir).map (fun f => f.name))
      else none) ∧
    (validCount goodDir.files < 3 → (scanFolder goodDir).1 = none) ∧
    (∀ name ts, (scanFolder goodDir).1 = some (name, ts) →
      name = goodDir.name ∧ ts.length = 3 ∧
      List.Pairwise (fun a b => lexLe (rawCodes a) (rawCodes b) = true) ts) :=
  C2_acceptance goodDir rfl

end ProjectLoW
